import Mathlib

/-!
Shallow embedding of the Soroban freelance-escrow contract
(`src/soroban-hello-world/contracts/hello-world/src/lib.rs`) and proofs about
its public operations: `post_job`, `assign_freelancer`, `accept_job`,
`update_job`, together with the spec's settlement payout formula.

Modelling conventions:
* `Address` is an opaque account identifier, embedded as `Nat`.
* `i128` fields are embedded as `Int` (the operations only store and compare
  them; no arithmetic is performed on them by the code under `src/`).
* `u64` values are embedded as `Nat`; the job counter increment checks the
  `u64` bound explicitly (the contract crate builds with overflow checks, so
  a wraparound panics rather than wrapping silently).
* The host environment's authorization oracle (`require_auth`) is a read-only
  predicate `Address → Bool` passed to each operation.
* Contract storage (the instance-storage job counter, the persistent job
  records, and the `extend_ttl` rent log) is threaded explicitly.  A panic
  aborts the call and is embedded as an `Outcome.err` carrying the storage as
  it stood at the panic site, so "no write happened before the failure" is a
  provable property of the embedding rather than an assumption.
-/

abbrev Address := Nat

def U64_MOD : Nat := 2 ^ 64

/-- `JobState` enum from the source, discriminants 0–5. -/
inductive JobState where
  | Open
  | Assigned
  | Accepted
  | Funded
  | Completed
  | Failed
deriving DecidableEq, Repr

/-- The numeric discriminant of each state, as in the source. -/
def JobState.idx : JobState → Nat
  | .Open => 0
  | .Assigned => 1
  | .Accepted => 2
  | .Funded => 3
  | .Completed => 4
  | .Failed => 5

/-- `s'` is the immediate forward successor of `s` along the source's
state order Open → Assigned → Accepted → Funded → Completed → Failed. -/
def forwardStep (s s' : JobState) : Prop := s'.idx = s.idx + 1

instance (s s' : JobState) : Decidable (forwardStep s s') := by
  unfold forwardStep; infer_instance

/-- The `Job` struct from the source. -/
structure Job where
  client : Address
  freelancer : Option Address
  token : Address
  amount : Int
  soft_deadline : Nat
  hard_deadline : Nat
  penalty_per_sec : Int
  state : JobState
deriving DecidableEq, Repr

/-- Abstract error kinds; each corresponds to a panic site (or a
`require_auth` failure) in the source. -/
inductive Err where
  | InvalidTerms
  | Unauthorized
  | NotFound
  | InvalidState
  | MissingFreelancer
  | Overflow
deriving DecidableEq, Repr

/-- Contract storage: the instance-storage `JobCounter` (absent initially),
the persistent `Job(id)` records, and the log of `extend_ttl` calls
(`(id, threshold, extend_to)` triples, most recent first). -/
structure Storage where
  jobCounter : Option Nat
  jobs : Nat → Option Job
  ttlLog : List (Nat × Nat × Nat)

def emptyStorage : Storage := ⟨none, fun _ => none, []⟩

def getJob (σ : Storage) (id : Nat) : Option Job := σ.jobs id

def setJob (σ : Storage) (id : Nat) (j : Job) : Storage :=
  { σ with jobs := fun i => if i = id then some j else σ.jobs i }

def extendTtl (σ : Storage) (id threshold extendTo : Nat) : Storage :=
  { σ with ttlLog := (id, threshold, extendTo) :: σ.ttlLog }

/-- Result of a public call: either the final storage plus the returned
`u64` (`0` for the `()`-returning operations), or the error kind plus the
storage as it stood when the call panicked. -/
inductive Outcome where
  | ok (σ : Storage) (ret : Nat)
  | err (e : Err) (σ : Storage)

def Outcome.isOk : Outcome → Bool
  | .ok _ _ => true
  | .err _ _ => false

def Outcome.store : Outcome → Storage
  | .ok σ _ => σ
  | .err _ σ => σ

/-- `post_job` (source lines 49–91): client auth, deadline and amount
validation, counter increment, store of the new `Open` job, rent bump. -/
def post_job (A : Address → Bool) (σ : Storage) (client token : Address)
    (initial_amount : Int) (soft_deadline hard_deadline : Nat)
    (penalty_per_sec : Int) : Outcome :=
  if A client = true then
    if hard_deadline ≤ soft_deadline then .err .InvalidTerms σ
    else if initial_amount ≤ 0 then .err .InvalidTerms σ
    else if U64_MOD ≤ σ.jobCounter.getD 0 + 1 then .err .Overflow σ
    else
      .ok (extendTtl
            (setJob { σ with jobCounter := some (σ.jobCounter.getD 0 + 1) }
              (σ.jobCounter.getD 0 + 1)
              ⟨client, none, token, initial_amount, soft_deadline,
               hard_deadline, penalty_per_sec, .Open⟩)
            (σ.jobCounter.getD 0 + 1) 17280 34560)
          (σ.jobCounter.getD 0 + 1)
  else .err .Unauthorized σ

/-- `assign_freelancer` (source lines 95–129): load, client auth, Open
check, deadline check, then overwrite of terms and state Assigned. -/
def assign_freelancer (A : Address → Bool) (σ : Storage) (job_id : Nat)
    (freelancer : Address) (final_amount : Int) (final_soft final_hard : Nat)
    (final_penalty : Int) : Outcome :=
  match getJob σ job_id with
  | none => .err .NotFound σ
  | some job =>
    if A job.client = true then
      if job.state ≠ JobState.Open then .err .InvalidState σ
      else if final_hard ≤ final_soft then .err .InvalidTerms σ
      else
        .ok (setJob σ job_id
              { job with freelancer := some freelancer,
                         amount := final_amount,
                         soft_deadline := final_soft,
                         hard_deadline := final_hard,
                         penalty_per_sec := final_penalty,
                         state := JobState.Assigned }) 0
    else .err .Unauthorized σ

/-- `accept_job` (source lines 133–151): load, Assigned check, freelancer
presence check, freelancer auth, state set to Accepted. -/
def accept_job (A : Address → Bool) (σ : Storage) (job_id : Nat) : Outcome :=
  match getJob σ job_id with
  | none => .err .NotFound σ
  | some job =>
    if job.state ≠ JobState.Assigned then .err .InvalidState σ
    else
      match job.freelancer with
      | none => .err .MissingFreelancer σ
      | some f =>
        if A f = true then
          .ok (setJob σ job_id { job with state := JobState.Accepted }) 0
        else .err .Unauthorized σ

/-- `update_job` (source lines 155–185): load, client auth, Open check,
then overwrite of amount/deadlines/penalty.  The source performs no
validation of the new values. -/
def update_job (A : Address → Bool) (σ : Storage) (job_id : Nat)
    (new_amount : Int) (new_soft new_hard : Nat) (new_penalty : Int) :
    Outcome :=
  match getJob σ job_id with
  | none => .err .NotFound σ
  | some job =>
    if A job.client = true then
      if job.state ≠ JobState.Open then .err .InvalidState σ
      else
        .ok (setJob σ job_id
              { job with amount := new_amount,
                         soft_deadline := new_soft,
                         hard_deadline := new_hard,
                         penalty_per_sec := new_penalty }) 0
    else .err .Unauthorized σ

/-- A public call together with its arguments (the job id or the creation
parameters), used to quantify over the contract's interface. -/
inductive OpCall where
  | post (client token : Address) (initial_amount : Int)
      (soft_deadline hard_deadline : Nat) (penalty_per_sec : Int)
  | assign (job_id : Nat) (freelancer : Address) (final_amount : Int)
      (final_soft final_hard : Nat) (final_penalty : Int)
  | accept (job_id : Nat)
  | update (job_id : Nat) (new_amount : Int) (new_soft new_hard : Nat)
      (new_penalty : Int)

def applyOp (A : Address → Bool) (σ : Storage) : OpCall → Outcome
  | .post c t a s h p => post_job A σ c t a s h p
  | .assign id f a s h p => assign_freelancer A σ id f a s h p
  | .accept id => accept_job A σ id
  | .update id a s h p => update_job A σ id a s h p

/-- Storages reachable from the contract's initial (empty) storage through
successful public calls, under arbitrary authorization environments.
Failed calls abort and leave storage unchanged, so they add no states. -/
inductive Reach : Storage → Prop where
  | init : Reach emptyStorage
  | step : ∀ (A : Address → Bool) (op : OpCall) (σ σ' : Storage) (r : Nat),
      Reach σ → applyOp A σ op = .ok σ' r → Reach σ'

/-! ### Concrete example environment and storages -/

def allAuth : Address → Bool := fun _ => true

def noAuth : Address → Bool := fun _ => false

/-- Storage after `post_job(client 1, token 9, amount 5, soft 10, hard 20,
penalty 0)` from the initial storage. -/
def exStorage1 : Storage := (post_job allAuth emptyStorage 1 9 5 10 20 0).store

/-- The job record stored by that `post_job`. -/
def exJob1 : Job := ⟨1, none, 9, 5, 10, 20, 0, .Open⟩

/-- Storage after `assign_freelancer(job 1, freelancer 2, amount 50,
soft 10, hard 20, penalty 3)` on `exStorage1`. -/
def exStorage2 : Storage :=
  (assign_freelancer allAuth exStorage1 1 2 50 10 20 3).store

/-- The job record stored by that `assign_freelancer`. -/
def exJob2 : Job := ⟨1, some 2, 9, 50, 10, 20, 3, .Assigned⟩

/-- Storage after `accept_job(job 1)` on `exStorage2`. -/
def exStorage3 : Storage := (accept_job allAuth exStorage2 1).store

/-- The job record stored by that `accept_job`. -/
def exJob3 : Job := ⟨1, some 2, 9, 50, 10, 20, 3, .Accepted⟩

/-! ### Settlement payout (spec-modelled) -/

/-- Modelled from the spec: the repository's `src/` contains no
`complete_job` operation (the settlement engine of spec §4.4 is absent from
the source file), so its payout computation is embedded from the spec's
formula: full payout up to the soft deadline, payout reduced by
`seconds_late * penalty_per_sec` strictly between the deadlines (floored at
zero once the penalty reaches the amount), zero payout from the hard
deadline on. -/
def payout (amount penalty_per_sec : Int)
    (soft_deadline hard_deadline now : Nat) : Int :=
  if now ≤ soft_deadline then amount
  else if now < hard_deadline then
    if ((now - soft_deadline : Nat) : Int) * penalty_per_sec < amount then
      amount - ((now - soft_deadline : Nat) : Int) * penalty_per_sec
    else 0
  else 0

/-- Modelled from the spec: the refund is the remainder of the escrowed
amount after the payout. -/
def refund (amount penalty_per_sec : Int)
    (soft_deadline hard_deadline now : Nat) : Int :=
  amount - payout amount penalty_per_sec soft_deadline hard_deadline now

/-! ### Iterated creation (for the id-allocation property) -/

/-- Runs a sequence of `post_job` calls (each argument tuple is
`(client, token, amount, soft, hard, penalty)`), collecting the returned
ids; yields `none` as soon as one call fails. -/
def runPosts (A : Address → Bool) :
    List (Address × Address × Int × Nat × Nat × Int) → Storage →
    Option (List Nat × Storage)
  | [], σ => some ([], σ)
  | (c, t, a, s, hd, p) :: rest, σ =>
    match post_job A σ c t a s hd p with
    | .ok σ' id => (runPosts A rest σ').map (fun q => (id :: q.1, q.2))
    | .err _ _ => none

/-- Three concrete valid creation calls. -/
def exPostArgs : List (Address × Address × Int × Nat × Nat × Int) :=
  [(1, 9, 5, 10, 20, 0), (1, 9, 7, 10, 30, 1), (4, 9, 2, 5, 6, 0)]

/-- The storage after running `exPostArgs` from the initial storage. -/
def exStorageF : Storage :=
  ((runPosts allAuth exPostArgs emptyStorage).getD ([], emptyStorage)).2

/-! ### Basic storage lemmas -/

theorem getJob_setJob_self (σ : Storage) (id : Nat) (j : Job) :
    getJob (setJob σ id j) id = some j := by
  simp [getJob, setJob]

theorem getJob_setJob_ne (σ : Storage) (id id' : Nat) (j : Job)
    (h : id' ≠ id) : getJob (setJob σ id j) id' = getJob σ id' := by
  simp [getJob, setJob, h]

theorem getJob_extendTtl (σ : Storage) (id threshold extendTo id' : Nat) :
    getJob (extendTtl σ id threshold extendTo) id' = getJob σ id' := rfl

theorem setJob_jobCounter (σ : Storage) (id : Nat) (j : Job) :
    (setJob σ id j).jobCounter = σ.jobCounter := rfl

theorem extendTtl_jobCounter (σ : Storage) (id threshold extendTo : Nat) :
    (extendTtl σ id threshold extendTo).jobCounter = σ.jobCounter := rfl

theorem setJob_ttlLog (σ : Storage) (id : Nat) (j : Job) :
    (setJob σ id j).ttlLog = σ.ttlLog := rfl

/-! ### Inversion lemmas for successful calls -/

theorem post_job_ok_inv (A : Address → Bool) (σ : Storage)
    (c t : Address) (a : Int) (s hd : Nat) (p : Int) (σ' : Storage) (r : Nat)
    (h : post_job A σ c t a s hd p = .ok σ' r) :
    A c = true ∧ s < hd ∧ 0 < a ∧ σ.jobCounter.getD 0 + 1 < U64_MOD ∧
    r = σ.jobCounter.getD 0 + 1 ∧
    σ' = extendTtl
          (setJob { σ with jobCounter := some r } r
            ⟨c, none, t, a, s, hd, p, .Open⟩) r 17280 34560 := by
  unfold post_job at h
  split at h
  · split at h
    · exact absurd h (by simp)
    · split at h
      · exact absurd h (by simp)
      · split at h
        · exact absurd h (by simp)
        · cases h
          refine ⟨by assumption, by omega, by omega, by omega, rfl, rfl⟩
  · exact absurd h (by simp)

theorem assign_ok_inv (A : Address → Bool) (σ : Storage) (jid : Nat)
    (f : Address) (a : Int) (s hd : Nat) (p : Int) (σ' : Storage) (r : Nat)
    (h : assign_freelancer A σ jid f a s hd p = .ok σ' r) :
    ∃ job, getJob σ jid = some job ∧ A job.client = true ∧
      job.state = .Open ∧ s < hd ∧
      σ' = setJob σ jid
            { job with freelancer := some f, amount := a,
                       soft_deadline := s, hard_deadline := hd,
                       penalty_per_sec := p, state := .Assigned } ∧
      r = 0 := by
  unfold assign_freelancer at h
  split at h
  · exact absurd h (by simp)
  · rename_i job hj
    split at h
    · split at h
      · exact absurd h (by simp)
      · split at h
        · exact absurd h (by simp)
        · cases h
          exact ⟨job, hj, by assumption, by simp_all, by omega, rfl, rfl⟩
    · exact absurd h (by simp)

theorem accept_ok_inv (A : Address → Bool) (σ : Storage) (jid : Nat)
    (σ' : Storage) (r : Nat) (h : accept_job A σ jid = .ok σ' r) :
    ∃ job f, getJob σ jid = some job ∧ job.state = .Assigned ∧
      job.freelancer = some f ∧ A f = true ∧
      σ' = setJob σ jid { job with state := .Accepted } ∧ r = 0 := by
  unfold accept_job at h
  split at h
  · exact absurd h (by simp)
  · rename_i job hj
    split at h
    · exact absurd h (by simp)
    · split at h
      · exact absurd h (by simp)
      · rename_i f hf
        split at h
        · cases h
          exact ⟨job, f, hj, by simp_all, hf, by assumption, rfl, rfl⟩
        · exact absurd h (by simp)

theorem update_ok_inv (A : Address → Bool) (σ : Storage) (jid : Nat)
    (a : Int) (s hd : Nat) (p : Int) (σ' : Storage) (r : Nat)
    (h : update_job A σ jid a s hd p = .ok σ' r) :
    ∃ job, getJob σ jid = some job ∧ A job.client = true ∧
      job.state = .Open ∧
      σ' = setJob σ jid
            { job with amount := a, soft_deadline := s,
                       hard_deadline := hd, penalty_per_sec := p } ∧
      r = 0 := by
  unfold update_job at h
  split at h
  · exact absurd h (by simp)
  · rename_i job hj
    split at h
    · split at h
      · exact absurd h (by simp)
      · cases h
        exact ⟨job, hj, by assumption, by simp_all, rfl, rfl⟩
    · exact absurd h (by simp)

/-! ### Failing calls carry the unmodified storage -/

theorem post_job_err_inv (A : Address → Bool) (σ : Storage)
    (c t : Address) (a : Int) (s hd : Nat) (p : Int) (e : Err) (σe : Storage)
    (h : post_job A σ c t a s hd p = .err e σe) : σe = σ := by
  unfold post_job at h
  split at h <;> [skip; (cases h; rfl)]
  split at h
  · cases h; rfl
  · split at h
    · cases h; rfl
    · split at h
      · cases h; rfl
      · exact absurd h (by simp)

theorem assign_err_inv (A : Address → Bool) (σ : Storage) (jid : Nat)
    (f : Address) (a : Int) (s hd : Nat) (p : Int) (e : Err) (σe : Storage)
    (h : assign_freelancer A σ jid f a s hd p = .err e σe) : σe = σ := by
  unfold assign_freelancer at h
  split at h
  · cases h; rfl
  · split at h
    · split at h
      · cases h; rfl
      · split at h
        · cases h; rfl
        · exact absurd h (by simp)
    · cases h; rfl

theorem accept_err_inv (A : Address → Bool) (σ : Storage) (jid : Nat)
    (e : Err) (σe : Storage) (h : accept_job A σ jid = .err e σe) :
    σe = σ := by
  unfold accept_job at h
  split at h
  · cases h; rfl
  · split at h
    · cases h; rfl
    · split at h
      · cases h; rfl
      · split at h
        · exact absurd h (by simp)
        · cases h; rfl

theorem update_err_inv (A : Address → Bool) (σ : Storage) (jid : Nat)
    (a : Int) (s hd : Nat) (p : Int) (e : Err) (σe : Storage)
    (h : update_job A σ jid a s hd p = .err e σe) : σe = σ := by
  unfold update_job at h
  split at h
  · cases h; rfl
  · split at h
    · split at h
      · cases h; rfl
      · exact absurd h (by simp)
    · cases h; rfl

/-! ### Reachability invariant -/

/-- Invariant of every reachable storage: stored ids lie in
`[1, jobCounter]`, and a job that has left `Open` has a freelancer. -/
def StoreInv (σ : Storage) : Prop :=
  ∀ id j, getJob σ id = some j →
    (1 ≤ id ∧ id ≤ σ.jobCounter.getD 0) ∧
    (j.state ≠ .Open → j.freelancer.isSome = true)

theorem reach_inv (σ : Storage) (hσ : Reach σ) : StoreInv σ := by
  induction hσ with
  | init =>
    intro id j hj
    exact absurd hj (by simp [getJob, emptyStorage])
  | step A op σ σ' r hre h ih =>
    cases op with
    | post c t a s hd p =>
      obtain ⟨-, -, -, -, hr, hσ'⟩ := post_job_ok_inv A σ c t a s hd p σ' r h
      intro id j hj
      subst hσ'
      rw [getJob_extendTtl] at hj
      by_cases hid : id = r
      · subst hid
        rw [getJob_setJob_self] at hj
        cases hj
        refine ⟨⟨by omega, ?_⟩, by simp⟩
        simp [setJob, extendTtl, hr]
      · rw [getJob_setJob_ne _ _ _ _ hid] at hj
        have := ih id j hj
        refine ⟨⟨this.1.1, ?_⟩, this.2⟩
        simp only [setJob, extendTtl, Option.getD_some]
        omega
    | assign jid f a s hd p =>
      obtain ⟨job, hj0, -, -, -, hσ', -⟩ :=
        assign_ok_inv A σ jid f a s hd p σ' r h
      intro id j hj
      subst hσ'
      by_cases hid : id = jid
      · subst hid
        rw [getJob_setJob_self] at hj
        cases hj
        exact ⟨(ih _ job hj0).1, by simp⟩
      · rw [getJob_setJob_ne _ _ _ _ hid] at hj
        exact ih id j hj
    | accept jid =>
      obtain ⟨job, f, hj0, -, hf, -, hσ', -⟩ := accept_ok_inv A σ jid σ' r h
      intro id j hj
      subst hσ'
      by_cases hid : id = jid
      · subst hid
        rw [getJob_setJob_self] at hj
        cases hj
        exact ⟨(ih _ job hj0).1, by simp [hf]⟩
      · rw [getJob_setJob_ne _ _ _ _ hid] at hj
        exact ih id j hj
    | update jid a s hd p =>
      obtain ⟨job, hj0, -, hst, hσ', -⟩ := update_ok_inv A σ jid a s hd p σ' r h
      intro id j hj
      subst hσ'
      by_cases hid : id = jid
      · subst hid
        rw [getJob_setJob_self] at hj
        cases hj
        exact ⟨(ih _ job hj0).1, by simp [hst]⟩
      · rw [getJob_setJob_ne _ _ _ _ hid] at hj
        exact ih id j hj

theorem reach_exStorage1 : Reach exStorage1 :=
  Reach.step allAuth (.post 1 9 5 10 20 0) emptyStorage exStorage1 1
    Reach.init rfl

theorem reach_exStorage2 : Reach exStorage2 :=
  Reach.step allAuth (.assign 1 2 50 10 20 3) exStorage1 exStorage2 0
    reach_exStorage1 rfl

theorem reach_exStorage3 : Reach exStorage3 :=
  Reach.step allAuth (.accept 1) exStorage2 exStorage3 0
    reach_exStorage2 rfl


/-! ### Claim C9: settlement payout invariants (spec-modelled) -/

/-- C9: for the spec's `complete_job` payout computation, with a
non-negative amount and penalty rate and ordered deadlines, the payout is
the full amount up to the soft deadline, zero from the hard deadline on,
the penalty-reduced value in between, and always `payout + refund = amount`
with `0 ≤ payout ≤ amount`. -/
theorem c9_payout_invariant (amount penalty_per_sec : Int)
    (soft hard now : Nat) (hamt : 0 ≤ amount) (hp : 0 ≤ penalty_per_sec)
    (hsh : soft < hard) :
    payout amount penalty_per_sec soft hard now +
      refund amount penalty_per_sec soft hard now = amount ∧
    0 ≤ payout amount penalty_per_sec soft hard now ∧
    payout amount penalty_per_sec soft hard now ≤ amount ∧
    refund amount penalty_per_sec soft hard now =
      amount - payout amount penalty_per_sec soft hard now ∧
    (now ≤ soft → payout amount penalty_per_sec soft hard now = amount) ∧
    (soft < now → now < hard →
      payout amount penalty_per_sec soft hard now =
        if ((now - soft : Nat) : Int) * penalty_per_sec < amount then
          amount - ((now - soft : Nat) : Int) * penalty_per_sec
        else 0) ∧
    (hard ≤ now → payout amount penalty_per_sec soft hard now = 0) := by
  have hpen : 0 ≤ ((now - soft : Nat) : Int) * penalty_per_sec :=
    mul_nonneg (Int.natCast_nonneg _) hp
  have hbounds : 0 ≤ payout amount penalty_per_sec soft hard now ∧
      payout amount penalty_per_sec soft hard now ≤ amount := by
    unfold payout
    by_cases h1 : now ≤ soft
    · simp only [if_pos h1]; omega
    · simp only [if_neg h1]
      by_cases h2 : now < hard
      · simp only [if_pos h2]
        by_cases h3 : ((now - soft : Nat) : Int) * penalty_per_sec < amount
        · simp only [if_pos h3]; omega
        · simp only [if_neg h3]; omega
      · simp only [if_neg h2]; omega
  refine ⟨by unfold refund; ring, hbounds.1, hbounds.2, rfl, ?_, ?_, ?_⟩
  · intro h1; unfold payout; simp only [if_pos h1]
  · intro h1 h2
    unfold payout
    simp only [if_neg (by omega : ¬ now ≤ soft), if_pos h2]
  · intro h1
    unfold payout
    simp only [if_neg (by omega : ¬ now ≤ soft), if_neg (by omega : ¬ now < hard)]

/-- C9 witness: the spec's worked scenario — amount 1000, soft 100,
hard 200, penalty 10 per second, completion at 150. -/
theorem c9_payout_invariant_witness :
    payout 1000 10 100 200 150 + refund 1000 10 100 200 150 = 1000 :=
  (c9_payout_invariant 1000 10 100 200 150 (by decide) (by decide)
    (by decide)).1

/-! ### Claim C1: amount positivity (corrected) -/

/-- C1 counterexample: from the reachable storage `exStorage1` (job 1 is
Open with amount 5), `update_job` with `new_amount = -1` succeeds and the
stored record's amount becomes `-1` — so not every operation that
overwrites `amount` preserves `amount > 0`. -/
theorem c1_counterexample :
    (update_job allAuth exStorage1 1 (-1) 10 20 0).isOk = true ∧
    (getJob (update_job allAuth exStorage1 1 (-1) 10 20 0).store 1).map
      Job.amount = some (-1) :=
  ⟨by decide, by decide⟩

/-- C1 (amended): `post_job` stores only jobs with `amount > 0` and
`accept_job` never changes the amount, but `assign_freelancer` and
`update_job` overwrite the amount with the caller-supplied value without
validation, so they do not preserve `amount > 0`. -/
theorem c1_amount_positivity :
    (∀ (A : Address → Bool) (σ : Storage) (c t : Address) (a : Int)
        (s hd : Nat) (p : Int) (σ' : Storage) (r : Nat) (j : Job),
      post_job A σ c t a s hd p = .ok σ' r → getJob σ' r = some j →
        0 < j.amount) ∧
    (∀ (A : Address → Bool) (σ : Storage) (id : Nat) (σ' : Storage)
        (r : Nat) (j j' : Job),
      accept_job A σ id = .ok σ' r → getJob σ id = some j →
        getJob σ' id = some j' → j'.amount = j.amount) ∧
    (∀ (A : Address → Bool) (σ : Storage) (id f : Nat) (a : Int)
        (s hd : Nat) (p : Int) (σ' : Storage) (r : Nat) (j' : Job),
      assign_freelancer A σ id f a s hd p = .ok σ' r →
        getJob σ' id = some j' → j'.amount = a) ∧
    (∀ (A : Address → Bool) (σ : Storage) (id : Nat) (a : Int)
        (s hd : Nat) (p : Int) (σ' : Storage) (r : Nat) (j' : Job),
      update_job A σ id a s hd p = .ok σ' r → getJob σ' id = some j' →
        j'.amount = a) := by
  refine ⟨?_, ?_, ?_, ?_⟩
  · intro A σ c t a s hd p σ' r j h hj
    obtain ⟨-, -, ha, -, -, hσ'⟩ := post_job_ok_inv A σ c t a s hd p σ' r h
    subst hσ'
    rw [getJob_extendTtl, getJob_setJob_self] at hj
    cases hj
    exact ha
  · intro A σ id σ' r j j' h hj hj'
    obtain ⟨job, f, hj0, -, -, -, hσ', -⟩ := accept_ok_inv A σ id σ' r h
    subst hσ'
    rw [getJob_setJob_self] at hj'
    rw [hj0] at hj
    cases hj
    cases hj'
    rfl
  · intro A σ id f a s hd p σ' r j' h hj'
    obtain ⟨job, -, -, -, -, hσ', -⟩ := assign_ok_inv A σ id f a s hd p σ' r h
    subst hσ'
    rw [getJob_setJob_self] at hj'
    cases hj'
    rfl
  · intro A σ id a s hd p σ' r j' h hj'
    obtain ⟨job, -, -, -, hσ', -⟩ := update_ok_inv A σ id a s hd p σ' r h
    subst hσ'
    rw [getJob_setJob_self] at hj'
    cases hj'
    rfl

/-- C1 witness: the concrete `post_job` behind `exStorage1` stored a job
with positive amount. -/
theorem c1_amount_positivity_witness : 0 < exJob1.amount :=
  c1_amount_positivity.1 allAuth emptyStorage 1 9 5 10 20 0 exStorage1 1
    exJob1 rfl (by decide)

/-! ### Claim C2: update_job validation (corrected) -/

/-- C2 counterexample: on the reachable storage `exStorage1`, `update_job`
with `new_amount = -2 ≤ 0` and `new_hard = 7 ≤ new_soft = 30` does not
fail with InvalidTerms: it succeeds and overwrites the stored record with
exactly those invalid values. -/
theorem c2_counterexample :
    (update_job allAuth exStorage1 1 (-2) 30 7 0).isOk = true ∧
    getJob (update_job allAuth exStorage1 1 (-2) 30 7 0).store 1 =
      some ⟨1, none, 9, -2, 30, 7, 0, .Open⟩ :=
  ⟨by decide, by decide⟩

/-- C2 (amended): `update_job` applies no validation at all to the new
amount or deadlines: whenever the record exists, the caller is the job's
client, and the state is Open, the call succeeds and overwrites
amount/deadlines/penalty with exactly the supplied values — including
`new_hard ≤ new_soft` or `new_amount ≤ 0`. -/
theorem c2_update_no_validation (A : Address → Bool) (σ : Storage)
    (id : Nat) (j : Job) (a : Int) (s hd : Nat) (p : Int)
    (hj : getJob σ id = some j) (ha : A j.client = true)
    (hs : j.state = .Open) :
    update_job A σ id a s hd p =
      .ok (setJob σ id
            { j with amount := a, soft_deadline := s, hard_deadline := hd,
                     penalty_per_sec := p }) 0 := by
  unfold update_job
  rw [hj]
  simp [ha, hs]

/-- C2 witness: a concrete `update_job` call with out-of-order deadlines
and a negative amount that nevertheless succeeds. -/
theorem c2_update_no_validation_witness :
    update_job allAuth exStorage1 1 (-2) 30 7 0 =
      .ok (setJob exStorage1 1
            { exJob1 with amount := -2, soft_deadline := 30,
                          hard_deadline := 7, penalty_per_sec := 0 }) 0 :=
  c2_update_no_validation allAuth exStorage1 1 exJob1 (-2) 30 7 0
    (by decide) rfl rfl

/-! ### Claim C5: post_job validation and effect -/

/-- C5: with the client's authorization, `post_job` rejects out-of-order
deadlines or a non-positive amount with `InvalidTerms` while leaving the
storage (counter and records) exactly as it was; with valid terms (and
`u64` headroom on the counter) it allocates the next id and stores a fresh
job in state Open with no freelancer. -/
theorem c5_post_job_validation (A : Address → Bool) (σ : Storage)
    (c t : Address) (a : Int) (s hd : Nat) (p : Int) (ha : A c = true) :
    ((hd ≤ s ∨ a ≤ 0) → post_job A σ c t a s hd p = .err .InvalidTerms σ) ∧
    (s < hd → 0 < a → σ.jobCounter.getD 0 + 1 < U64_MOD →
      post_job A σ c t a s hd p =
        .ok (extendTtl
              (setJob { σ with jobCounter := some (σ.jobCounter.getD 0 + 1) }
                (σ.jobCounter.getD 0 + 1) ⟨c, none, t, a, s, hd, p, .Open⟩)
              (σ.jobCounter.getD 0 + 1) 17280 34560)
            (σ.jobCounter.getD 0 + 1)) := by
  constructor
  · rintro (hle | hle)
    · simp [post_job, ha, hle]
    · by_cases h1 : hd ≤ s
      · simp [post_job, ha, h1]
      · simp [post_job, ha, h1, hle]
  · intro h1 h2 h3
    have e1 : ¬ hd ≤ s := by omega
    have e2 : ¬ a ≤ 0 := by omega
    have e3 : ¬ U64_MOD ≤ σ.jobCounter.getD 0 + 1 := by omega
    simp [post_job, ha, e1, e2, e3]

/-- C5 witness: a rejected creation (hard 10 ≤ soft 20) leaves the empty
storage untouched, and a valid creation stores the Open job with id 1. -/
theorem c5_post_job_validation_witness :
    post_job allAuth emptyStorage 1 9 5 20 10 0 =
      .err .InvalidTerms emptyStorage ∧
    post_job allAuth emptyStorage 1 9 5 10 20 0 =
      .ok (extendTtl
            (setJob { emptyStorage with jobCounter := some 1 } 1
              ⟨1, none, 9, 5, 10, 20, 0, .Open⟩) 1 17280 34560) 1 :=
  ⟨(c5_post_job_validation allAuth emptyStorage 1 9 5 20 10 0 rfl).1
      (Or.inl (by decide)),
   (c5_post_job_validation allAuth emptyStorage 1 9 5 10 20 0 rfl).2
      (by decide) (by decide) (by decide)⟩

/-! ### Claim C6: assign_freelancer failures -/

/-- C6: with the client's authorization, `assign_freelancer` on a job that
is not Open fails with `InvalidState`; without the client's authorization
it fails with `Unauthorized`; and every failing call returns with the
storage exactly as it was (no record is modified). -/
theorem c6_assign_failures (A : Address → Bool) (σ : Storage) (id f : Nat)
    (a : Int) (s hd : Nat) (p : Int) :
    (∀ j, getJob σ id = some j → A j.client = true → j.state ≠ .Open →
      assign_freelancer A σ id f a s hd p = .err .InvalidState σ) ∧
    (∀ j, getJob σ id = some j → A j.client = false →
      assign_freelancer A σ id f a s hd p = .err .Unauthorized σ) ∧
    (∀ e σe, assign_freelancer A σ id f a s hd p = .err e σe → σe = σ) := by
  refine ⟨?_, ?_, fun e σe h => assign_err_inv A σ id f a s hd p e σe h⟩
  · intro j hj ha hs
    unfold assign_freelancer
    rw [hj]
    simp [ha, hs]
  · intro j hj ha
    unfold assign_freelancer
    rw [hj]
    simp [ha]

/-- C6 witness: assigning an already-Assigned job fails with InvalidState,
and assigning without the client's authorization fails with Unauthorized —
both leaving the storage unchanged. -/
theorem c6_assign_failures_witness :
    assign_freelancer allAuth exStorage2 1 3 7 1 2 0 =
      .err .InvalidState exStorage2 ∧
    assign_freelancer noAuth exStorage1 1 3 7 1 2 0 =
      .err .Unauthorized exStorage1 :=
  ⟨(c6_assign_failures allAuth exStorage2 1 3 7 1 2 0).1 exJob2 (by decide)
      rfl (by decide),
   (c6_assign_failures noAuth exStorage1 1 3 7 1 2 0).2.1 exJob1 (by decide)
      rfl⟩

/-! ### Claim C7: accept_job behavior -/

/-- C7: `accept_job` on a job that is not Assigned (for example one still
Open) fails with `InvalidState` leaving the storage unchanged, and on an
Assigned job with the freelancer's authorization it sets the state to
Accepted and changes nothing else in the record. -/
theorem c7_accept_behavior (A : Address → Bool) (σ : Storage) (id : Nat) :
    (∀ j, getJob σ id = some j → j.state ≠ .Assigned →
      accept_job A σ id = .err .InvalidState σ) ∧
    (∀ j f, getJob σ id = some j → j.state = .Assigned →
      j.freelancer = some f → A f = true →
      accept_job A σ id =
        .ok (setJob σ id { j with state := .Accepted }) 0) := by
  constructor
  · intro j hj hs
    unfold accept_job
    rw [hj]
    simp [hs]
  · intro j f hj hs hf ha
    unfold accept_job
    rw [hj]
    simp [hs, hf, ha]

/-- C7 witness: accepting the never-assigned Open job of `exStorage1`
fails with InvalidState, and accepting the Assigned job of `exStorage2`
with the freelancer's authorization stores the same record with state
Accepted. -/
theorem c7_accept_behavior_witness :
    accept_job allAuth exStorage1 1 = .err .InvalidState exStorage1 ∧
    accept_job allAuth exStorage2 1 =
      .ok (setJob exStorage2 1 { exJob2 with state := .Accepted }) 0 :=
  ⟨(c7_accept_behavior allAuth exStorage1 1).1 exJob1 (by decide) (by decide),
   (c7_accept_behavior allAuth exStorage2 1).2 exJob2 2 (by decide)
      (by decide) (by decide) rfl⟩

/-! ### Claim C3: no backward state transition -/

/-- C3: on any reachable storage, a successful public call never moves a
stored job's state backward: for every record present before and after the
call, the new state equals the old one or is its immediate forward
successor along Open → Assigned → Accepted (→ Funded → Completed). -/
theorem c3_no_backward_transition (A : Address → Bool) (σ : Storage)
    (op : OpCall) (σ' : Storage) (r : Nat) (id : Nat) (j j' : Job)
    (hσ : Reach σ) (h : applyOp A σ op = .ok σ' r)
    (hj : getJob σ id = some j) (hj' : getJob σ' id = some j') :
    j'.state = j.state ∨ forwardStep j.state j'.state := by
  cases op with
  | post c t a s hd p =>
    obtain ⟨-, -, -, -, hr, hσ'⟩ := post_job_ok_inv A σ c t a s hd p σ' r h
    subst hσ'
    have hinv := (reach_inv σ hσ id j hj).1
    have hne : id ≠ r := by omega
    rw [getJob_extendTtl, getJob_setJob_ne _ _ _ _ hne] at hj'
    have : getJob σ id = some j' := hj'
    rw [hj] at this
    cases this
    exact Or.inl rfl
  | assign jid f a s hd p =>
    obtain ⟨job, hj0, -, hopen, -, hσ', -⟩ :=
      assign_ok_inv A σ jid f a s hd p σ' r h
    subst hσ'
    by_cases hid : id = jid
    · subst hid
      rw [getJob_setJob_self] at hj'
      rw [hj0] at hj
      cases hj
      cases hj'
      right
      rw [hopen]
      rfl
    · rw [getJob_setJob_ne _ _ _ _ hid, hj] at hj'
      cases hj'
      exact Or.inl rfl
  | accept jid =>
    obtain ⟨job, f, hj0, hassigned, -, -, hσ', -⟩ :=
      accept_ok_inv A σ jid σ' r h
    subst hσ'
    by_cases hid : id = jid
    · subst hid
      rw [getJob_setJob_self] at hj'
      rw [hj0] at hj
      cases hj
      cases hj'
      right
      rw [hassigned]
      rfl
    · rw [getJob_setJob_ne _ _ _ _ hid, hj] at hj'
      cases hj'
      exact Or.inl rfl
  | update jid a s hd p =>
    obtain ⟨job, hj0, -, -, hσ', -⟩ := update_ok_inv A σ jid a s hd p σ' r h
    subst hσ'
    by_cases hid : id = jid
    · subst hid
      rw [getJob_setJob_self] at hj'
      rw [hj0] at hj
      cases hj
      cases hj'
      exact Or.inl rfl
    · rw [getJob_setJob_ne _ _ _ _ hid, hj] at hj'
      cases hj'
      exact Or.inl rfl

/-- C3 witness: the concrete assignment step from `exStorage1` to
`exStorage2` moves job 1 forward (Open → Assigned), not backward. -/
theorem c3_no_backward_transition_witness :
    exJob2.state = exJob1.state ∨ forwardStep exJob1.state exJob2.state :=
  c3_no_backward_transition allAuth exStorage1 (.assign 1 2 50 10 20 3)
    exStorage2 0 1 exJob1 exJob2 reach_exStorage1 rfl (by decide) (by decide)

/-! ### Claim C8: storage lifetime extension (corrected) -/

/-- C8 counterexample: the successful `assign_freelancer` call from
`exStorage1` to `exStorage2` overwrites job 1's record but performs no
lifetime extension (the ttl log is unchanged) — so not every write of a
job record extends its storage lifetime. -/
theorem c8_counterexample :
    (assign_freelancer allAuth exStorage1 1 2 50 10 20 3).isOk = true ∧
    (assign_freelancer allAuth exStorage1 1 2 50 10 20 3).store.ttlLog =
      exStorage1.ttlLog ∧
    getJob (assign_freelancer allAuth exStorage1 1 2 50 10 20 3).store 1 ≠
      getJob exStorage1 1 :=
  ⟨by decide, by decide, by decide⟩

/-- C8 (amended): only `post_job` extends the stored record's lifetime
(threshold 17280 ledger units, extend-to cap 34560); `assign_freelancer`,
`accept_job` and `update_job` overwrite the record without extending its
lifetime. -/
theorem c8_ttl_behavior :
    (∀ (A : Address → Bool) (σ : Storage) (c t : Address) (a : Int)
        (s hd : Nat) (p : Int) (σ' : Storage) (r : Nat),
      post_job A σ c t a s hd p = .ok σ' r →
        σ'.ttlLog = (r, 17280, 34560) :: σ.ttlLog) ∧
    (∀ (A : Address → Bool) (σ : Storage) (id f : Nat) (a : Int)
        (s hd : Nat) (p : Int) (σ' : Storage) (r : Nat),
      assign_freelancer A σ id f a s hd p = .ok σ' r →
        σ'.ttlLog = σ.ttlLog) ∧
    (∀ (A : Address → Bool) (σ : Storage) (id : Nat) (σ' : Storage)
        (r : Nat),
      accept_job A σ id = .ok σ' r → σ'.ttlLog = σ.ttlLog) ∧
    (∀ (A : Address → Bool) (σ : Storage) (id : Nat) (a : Int) (s hd : Nat)
        (p : Int) (σ' : Storage) (r : Nat),
      update_job A σ id a s hd p = .ok σ' r → σ'.ttlLog = σ.ttlLog) := by
  refine ⟨?_, ?_, ?_, ?_⟩
  · intro A σ c t a s hd p σ' r h
    obtain ⟨-, -, -, -, -, hσ'⟩ := post_job_ok_inv A σ c t a s hd p σ' r h
    subst hσ'
    rfl
  · intro A σ id f a s hd p σ' r h
    obtain ⟨job, -, -, -, -, hσ', -⟩ := assign_ok_inv A σ id f a s hd p σ' r h
    subst hσ'
    rfl
  · intro A σ id σ' r h
    obtain ⟨job, f, -, -, -, -, hσ', -⟩ := accept_ok_inv A σ id σ' r h
    subst hσ'
    rfl
  · intro A σ id a s hd p σ' r h
    obtain ⟨job, -, -, -, hσ', -⟩ := update_ok_inv A σ id a s hd p σ' r h
    subst hσ'
    rfl

/-- C8 witness: the concrete `post_job` behind `exStorage1` logged the
lifetime extension (1, 17280, 34560). -/
theorem c8_ttl_behavior_witness :
    exStorage1.ttlLog = (1, 17280, 34560) :: emptyStorage.ttlLog :=
  c8_ttl_behavior.1 allAuth emptyStorage 1 9 5 10 20 0 exStorage1 1 rfl

/-! ### Claim C10: freelancer presence invariant -/

/-- Inversion of the MissingFreelancer failure of `accept_job`: it fires
only on a stored Assigned job with no freelancer set. -/
theorem accept_missing_inv (A : Address → Bool) (σ : Storage) (jid : Nat)
    (σe : Storage) (h : accept_job A σ jid = .err .MissingFreelancer σe) :
    ∃ job, getJob σ jid = some job ∧ job.state = .Assigned ∧
      job.freelancer = none := by
  unfold accept_job at h
  split at h
  · exact absurd h (by simp)
  · rename_i job hj
    split at h
    · exact absurd h (by simp)
    · split at h
      · exact ⟨job, hj, by simp_all, by assumption⟩
      · split at h
        · exact absurd h (by simp)
        · exact absurd h (by simp)

/-- C10: in every reachable storage, a job that has left Open has a
freelancer set, and consequently `accept_job` can never fail with the
"No freelancer data" (MissingFreelancer) error. -/
theorem c10_missing_freelancer_unreachable (σ : Storage) (hσ : Reach σ) :
    (∀ id j, getJob σ id = some j → j.state ≠ .Open →
      j.freelancer.isSome = true) ∧
    (∀ (A : Address → Bool) (id : Nat) (e : Err) (σe : Storage),
      accept_job A σ id = .err e σe → e ≠ .MissingFreelancer) := by
  have hinv := reach_inv σ hσ
  refine ⟨fun id j hj hs => (hinv id j hj).2 hs, ?_⟩
  intro A id e σe h hcontra
  subst hcontra
  obtain ⟨job, hj, hassigned, hfree⟩ := accept_missing_inv A σ id σe h
  have := (hinv id job hj).2 (by simp [hassigned])
  rw [hfree] at this
  exact absurd this (by simp)

/-- C10 witness: in the reachable storage `exStorage2`, the Assigned job
has its freelancer set. -/
theorem c10_missing_freelancer_unreachable_witness :
    exJob2.freelancer.isSome = true :=
  (c10_missing_freelancer_unreachable exStorage2 reach_exStorage2).1 1
    exJob2 (by decide) (by decide)

/-! ### Claim C4: id allocation -/

/-- Each successful `post_job` in a sequence returns the previous counter
plus one, so a run of creations yields consecutive ids and bumps the
counter by the number of calls. -/
theorem runPosts_ids (A : Address → Bool)
    (args : List (Address × Address × Int × Nat × Nat × Int)) (σ : Storage)
    (ids : List Nat) (σf : Storage)
    (h : runPosts A args σ = some (ids, σf)) :
    ids = List.range' (σ.jobCounter.getD 0 + 1) args.length ∧
    σf.jobCounter.getD 0 = σ.jobCounter.getD 0 + args.length := by
  induction args generalizing σ ids with
  | nil =>
    unfold runPosts at h
    cases h
    exact ⟨rfl, rfl⟩
  | cons hdarg rest ih =>
    obtain ⟨c, t, a, s, hd, p⟩ := hdarg
    unfold runPosts at h
    cases hpost : post_job A σ c t a s hd p with
    | err e σe => rw [hpost] at h; exact absurd h (by simp)
    | ok σ' id =>
      rw [hpost] at h
      rw [Option.map_eq_some'] at h
      obtain ⟨q, hrun, heq⟩ := h
      obtain ⟨ids', σf'⟩ := q
      injection heq with h1 h2
      subst h1
      subst h2
      obtain ⟨-, -, -, -, hr, hσ'⟩ := post_job_ok_inv A σ c t a s hd p σ' id hpost
      have hcount : σ'.jobCounter.getD 0 = σ.jobCounter.getD 0 + 1 := by
        rw [hσ']; exact hr
      obtain ⟨ih1, ih2⟩ := ih σ' ids' hrun
      constructor
      · rw [ih1, hcount, List.length_cons, List.range'_succ, hr]
      · rw [ih2, hcount, List.length_cons]
        omega

/-- C4: starting from an absent counter (treated as 0), N sequential
successful `post_job` calls return exactly the ids 1, 2, ..., N (so each
id is returned exactly once), and the persisted counter ends at N — it was
incremented by exactly 1 per call. -/
theorem c4_id_allocation (A : Address → Bool)
    (args : List (Address × Address × Int × Nat × Nat × Int))
    (σ0 : Storage) (ids : List Nat) (σf : Storage)
    (h0 : σ0.jobCounter = none)
    (h : runPosts A args σ0 = some (ids, σf)) :
    ids = List.range' 1 args.length ∧ ids.Nodup ∧
    σf.jobCounter.getD 0 = args.length := by
  obtain ⟨h1, h2⟩ := runPosts_ids A args σ0 ids σf h
  rw [h0] at h1 h2
  simp only [Option.getD_none, Nat.zero_add] at h1 h2
  exact ⟨h1, h1 ▸ List.nodup_range' 1 args.length, h2⟩

/-- C4 witness: the three concrete creations of `exPostArgs` return the
ids 1, 2, 3 and leave the counter at 3. -/
theorem c4_id_allocation_witness :
    [1, 2, 3] = List.range' 1 exPostArgs.length ∧ [1, 2, 3].Nodup ∧
    exStorageF.jobCounter.getD 0 = exPostArgs.length :=
  c4_id_allocation allAuth exPostArgs emptyStorage [1, 2, 3] exStorageF
    rfl rfl
